import Mathlib

/-!
Verification development for the SBS2 sequenced blob storage library.

The Lean definitions below are a shallow embedding of the Python source:

* `sha1Hex`, `normalizeExt`, `blobIdOf`, `createBlob` embed the hashing /
  dedup engine of `sbs2/__init__.py` (`Library.create_blob`);
* `digitValueAwareSortKey`, `entryFileName`, `fsPutEntry`, `fsGetEntry`,
  `fsDeleteEntry`, `fsGetEntries` embed `sbs2/filesystem.py`
  (`FileSystemLibrary`), and `sqliteDeleteEntry` the corresponding part of
  `sbs2/sqlite.py`;
* `percentComplete`, `declinesIngestion`, `putEntryWithUrlContent` embed the
  ingestion coordinator of `sbs2/webapps/intake.py` (`_DownloadStatus`,
  `_Ingestor.put_entry_with_url_content`).

Machine integers are modelled as `Nat` with explicit reduction modulo `2 ^ 32`
where the SHA-1 rounds overflow; Python exceptions are modelled as `Except` /
`Option` results.
-/

set_option autoImplicit false
set_option maxRecDepth 100000

namespace SBS2

/-! ### Association-list helpers

Both the blob store (a directory keyed by blob id), the entry file folder
(keyed by file name) and the sqlite entry table (keyed by entry id) are
finite maps; they are embedded as association lists with the operations
below.  `insertReplace` replaces an existing binding (a file write / sql
upsert overwrites), `removeAll` removes every binding with the key (file
names are unique on a real filesystem, so this agrees with unlinking). -/

def lookupA {α : Type} (l : List (String × α)) (k : String) : Option α :=
  match l with
  | [] => none
  | (k', v) :: rest => if k' = k then some v else lookupA rest k

def containsKey {α : Type} (l : List (String × α)) (k : String) : Bool :=
  (lookupA l k).isSome

def insertReplace {α : Type} (l : List (String × α)) (k : String) (v : α) :
    List (String × α) :=
  match l with
  | [] => [(k, v)]
  | (k', v') :: rest =>
      if k' = k then (k, v) :: rest else (k', v') :: insertReplace rest k v

def removeAll {α : Type} (l : List (String × α)) (k : String) :
    List (String × α) :=
  l.filter (fun p => p.1 ≠ k)

/-! ### SHA-1

`Library.create_blob` derives the blob id from `hashlib.sha1` of the content
bytes.  The algorithm is embedded over `Nat`: a byte is a `Nat < 256`, a
32-bit word a `Nat < 2 ^ 32`, and every word operation reduces modulo
`2 ^ 32`. -/

def w32 (x : Nat) : Nat := x % 4294967296

/-- Left-rotation of a 32-bit word (`x < 2 ^ 32`, `n ≤ 32`). -/
def rotl (n x : Nat) : Nat :=
  (x % 2 ^ (32 - n)) * 2 ^ n + x / 2 ^ (32 - n)

/-- Bitwise complement of a 32-bit word. -/
def compl32 (x : Nat) : Nat := 4294967295 - x

/-- The SHA-1 round function: `Ch` for rounds 0-19, parity for 20-39 and
60-79, `Maj` for 40-59. -/
def sha1F (i b c d : Nat) : Nat :=
  if i < 20 then (b &&& c) ||| (compl32 b &&& d)
  else if i < 40 then b ^^^ c ^^^ d
  else if i < 60 then (b &&& c) ||| (b &&& d) ||| (c &&& d)
  else b ^^^ c ^^^ d

/-- The SHA-1 round constant for round `i`. -/
def sha1K (i : Nat) : Nat :=
  if i < 20 then 1518500249
  else if i < 40 then 1859775393
  else if i < 60 then 2400959708
  else 3395469782

/-- Big-endian packing of bytes into 32-bit words. -/
def bytesToWords : List Nat → List Nat
  | b0 :: b1 :: b2 :: b3 :: rest =>
      (((b0 * 256 + b1) * 256 + b2) * 256 + b3) :: bytesToWords rest
  | _ => []

/-- Extend 16 message words to 80: `w[i] = rotl1 (w[i-3] ^ w[i-8] ^ w[i-14]
^ w[i-16])`, appending `k` further words. -/
def extendWords (a : Array Nat) : Nat → Array Nat
  | 0 => a
  | k + 1 =>
      let i := a.size
      let w := rotl 1 ((a.getD (i - 3) 0) ^^^ (a.getD (i - 8) 0) ^^^
        (a.getD (i - 14) 0) ^^^ (a.getD (i - 16) 0))
      extendWords (a.push w) k

/-- One SHA-1 round: the state is `(i, a, b, c, d, e)` where `i` is the round
index. -/
def sha1Round (st : Nat × Nat × Nat × Nat × Nat × Nat) (wi : Nat) :
    Nat × Nat × Nat × Nat × Nat × Nat :=
  match st with
  | (i, a, b, c, d, e) =>
      let temp := w32 (rotl 5 a + sha1F i b c d + e + sha1K i + wi)
      (i + 1, temp, a, rotl 30 b, c, d)

/-- Process one 64-byte chunk, updating the five hash words. -/
def sha1Chunk (h : Nat × Nat × Nat × Nat × Nat) (chunk : List Nat) :
    Nat × Nat × Nat × Nat × Nat :=
  match h with
  | (h0, h1, h2, h3, h4) =>
      let ws := (extendWords (Array.mk (bytesToWords chunk)) 64).toList
      let fin := ws.foldl sha1Round (0, h0, h1, h2, h3, h4)
      match fin with
      | (_, a, b, c, d, e) =>
          (w32 (h0 + a), w32 (h1 + b), w32 (h2 + c), w32 (h3 + d), w32 (h4 + e))

/-- Split a byte list into 64-byte chunks; the first argument is a fuel bound
(recursion is structural on it so that the kernel can evaluate the digest). -/
def chunks64Aux : Nat → List Nat → List (List Nat)
  | 0, _ => []
  | _, [] => []
  | fuel + 1, l => l.take 64 :: chunks64Aux fuel (l.drop 64)

/-- Split a byte list into 64-byte chunks.  `l.length` steps of fuel always
suffice since every step consumes 64 bytes of a non-empty list. -/
def chunks64 (l : List Nat) : List (List Nat) :=
  chunks64Aux (l.length + 1) l

/-- SHA-1 padding: a `0x80` byte, zeros to 56 mod 64, then the bit length as
eight big-endian bytes. -/
def sha1Pad (msg : List Nat) : List Nat :=
  let bitLen := 8 * msg.length
  let r := (msg.length + 1) % 64
  let zeros := (64 + 56 - r) % 64
  msg ++ [128] ++ List.replicate zeros 0 ++
    ((List.range 8).map (fun j => (bitLen >>> (8 * (7 - j))) % 256))

/-- A nibble as a lowercase hexadecimal character. -/
def hexDigit (n : Nat) : Char :=
  if n < 10 then Char.ofNat (48 + n) else Char.ofNat (87 + n)

/-- A 32-bit word as eight lowercase hexadecimal characters. -/
def wordToHex (x : Nat) : String :=
  String.mk (((List.range 8).map (fun j => hexDigit ((x >>> (4 * (7 - j))) % 16))))

/-- `hashlib.sha1(bytes).hexdigest()`: the lowercase-hex SHA-1 digest of a
byte list. -/
def sha1Hex (msg : List Nat) : String :=
  let init : Nat × Nat × Nat × Nat × Nat :=
    (1732584193, 4023233417, 2562383102, 271733878, 3285377520)
  match (chunks64 (sha1Pad msg)).foldl sha1Chunk init with
  | (h0, h1, h2, h3, h4) =>
      wordToHex h0 ++ wordToHex h1 ++ wordToHex h2 ++ wordToHex h3 ++ wordToHex h4

/-! ### `Library.create_blob` (the hashing / dedup engine)

A `Content` exposes MIME type and a one-shot body stream; `DownloadedContent`
(`_PrehashedContent`) additionally carries the SHA-1 digest computed while the
body was first streamed, so its bytes hash to exactly that digest.  `mimetypes.
guess_extension` is Python-stdlib table lookup, passed in as the `guess`
parameter.  The store records a persisted-write count (the test suite's
write-count probe) and every call reports how often the content body was
streamed, whether the backend write primitive ran, and whether the progress
callback was invoked. -/

structure ContentM where
  bytes : List Nat
  mime : String
  /-- `True` models `_PrehashedContent` (e.g. `DownloadedContent`). -/
  prehashed : Bool
deriving DecidableEq, Repr

structure BlobStore where
  blobs : List (String × List Nat)
  writes : Nat
deriving DecidableEq, Repr

structure CreateEvents where
  /-- Number of full passes over the content body during this call. -/
  bodyReads : Nat
  /-- Number of `_write_blob_content` invocations during this call. -/
  persistWrites : Nat
  /-- Whether the `write_callback` was invoked during this call. -/
  callbackInvoked : Bool
deriving DecidableEq, Repr

/-- `ext = mimetypes.guess_extension(...); if not ext: ext = ''; elif ext ==
'.jpe': ext = '.jpg'`. -/
def normalizeExt (e : Option String) : String :=
  match e with
  | none => ""
  | some s => if s = "" then "" else if s = ".jpe" then ".jpg" else s

/-- The blob id computed by `create_blob`: lowercase-hex SHA-1 of the bytes
plus the normalized extension guessed from the MIME type. -/
def blobIdOf (guess : String → Option String) (c : ContentM) : String :=
  sha1Hex c.bytes ++ normalizeExt (guess c.mime)

/-- `Library.get_blob`: absent blob ids map to `none`. -/
def getBlob (s : BlobStore) (blobId : String) : Option (String × List Nat) :=
  (lookupA s.blobs blobId).map (fun bytes => (blobId, bytes))

/-- `Library.create_blob(content, write_callback)`.  Returns the blob (id and
its stored bytes), the new store, and the observable events of the call:

* a non-prehashed content is streamed once through the SHA-1 accumulator;
  a `_PrehashedContent` supplies its digest without a body read;
* if a blob with the derived id exists it is returned as is — no further
  body read, no write, no callback;
* otherwise `_write_blob_content` streams the body once more into the store
  and fires the callback per non-empty chunk written. -/
def createBlob (guess : String → Option String) (s : BlobStore) (c : ContentM)
    (hasCallback : Bool) : (String × List Nat) × BlobStore × CreateEvents :=
  let hashReads := if c.prehashed then 0 else 1
  let blobId := blobIdOf guess c
  match lookupA s.blobs blobId with
  | some stored => ((blobId, stored), s, ⟨hashReads, 0, false⟩)
  | none =>
      ((blobId, c.bytes),
       ⟨insertReplace s.blobs blobId c.bytes, s.writes + 1⟩,
       ⟨hashReads + 1, 1, hasCallback && !c.bytes.isEmpty⟩)

/-! ### `FileSystemLibrary`

Entries live as files named `with_suffix(entry_id, '.yaml')` inside the
entries folder; the stored file holds the serialized entry (its `entry_id`
field included).  `digit_value_aware_sort_key` splits an id on maximal digit
runs, turning runs into integers. -/

structure EntryRec where
  entryId : String
  meta : String
  blobIds : List String
deriving DecidableEq, Repr

/-- A key part produced by `digit_value_aware_sort_key`: `int(p)` for digit
runs, the raw string otherwise. -/
inductive KeyPart where
  | str (v : String)
  | num (v : Nat)
deriving DecidableEq, Repr

/-- Group a character list into maximal runs of digits / non-digits, as
`re.split(r'(\d+)', value)` does (empty parts dropped). -/
def groupRuns (cs : List Char) : List (List Char) :=
  cs.foldr
    (fun c acc =>
      match acc with
      | [] => [[c]]
      | g :: gs =>
          match g with
          | [] => [c] :: gs
          | d :: _ => if c.isDigit = d.isDigit then (c :: g) :: gs else [c] :: g :: gs)
    []

def digitsToNat (cs : List Char) : Nat :=
  cs.foldl (fun a c => a * 10 + (c.toNat - 48)) 0

/-- `digit_value_aware_sort_key`. -/
def digitValueAwareSortKey (v : String) : List KeyPart :=
  (groupRuns v.toList).map
    (fun g =>
      match g with
      | [] => .str ""
      | c :: _ => if c.isDigit then .num (digitsToNat g) else .str (String.mk g))

/-- Python's lexicographic `str.__lt__` (code-point order). -/
def ltChars : List Char → List Char → Bool
  | [], [] => false
  | [], _ :: _ => true
  | _ :: _, [] => false
  | a :: as, b :: bs =>
      if a < b then true else if b < a then false else ltChars as bs

/-- Comparison of key parts under Python's `<`.  Comparing an `int` with a
`str` raises `TypeError` in Python (a digit-leading and a letter-leading
entry id produce keys whose first parts mix `int` and `str`); the Bool model
returns `false` in both directions there, so every statement that quantifies
over stores is restricted to keys that are pairwise comparable in Python's
sense (`pyComparable` below), where this branch is dead.  Concrete-scenario
statements use only letter-leading ids, whose compared parts always align. -/
def ltKeyPart : KeyPart → KeyPart → Bool
  | .num a, .num b => a < b
  | .str a, .str b => ltChars a.toList b.toList
  | .num _, .str _ => false
  | .str _, .num _ => false

/-- Python's lexicographic `list.__lt__` over key parts. -/
def ltKey : List KeyPart → List KeyPart → Bool
  | [], [] => false
  | [], _ :: _ => true
  | _ :: _, [] => false
  | a :: as, b :: bs =>
      if ltKeyPart a b then true else if ltKeyPart b a then false else ltKey as bs

/-- `pathlib.PurePath.with_suffix` / `.stem` both strip the final dot-suffix
of a name: the characters from the last `'.'` on, provided that dot is
neither the first nor the last character. -/
def stripLastSuffix (name : String) : String :=
  let cs := name.toList
  let dotIdxs := (cs.enum.filter (fun p => p.2 = '.')).map (fun p => p.1)
  match dotIdxs.getLast? with
  | some i => if 0 < i ∧ i + 1 < cs.length then String.mk (cs.take i) else name
  | none => name

/-- `FileSystemLibrary._get_entry_file_path`: `entries_path.joinpath(entry_id)
.with_suffix(ext)` — the id's own dot-suffix is replaced by the entry file
extension.  -/
def entryFileName (entryId : String) (ext : String) : String :=
  stripLastSuffix entryId ++ ext

/-- The entries folder: file name → stored entry data (the yaml round-trip is
the identity on the stored record). -/
structure FsStore where
  files : List (String × EntryRec)
deriving DecidableEq, Repr

/-- The configured entry file extension (`yaml_entry_file_format`). -/
def yamlExt : String := ".yaml"

/-- `FileSystemLibrary.put_entry`: writes the serialized entry to the file at
`_get_entry_file_path(entry.entry_id)`, overwriting it if present. -/
def fsPutEntry (s : FsStore) (e : EntryRec) : FsStore :=
  ⟨insertReplace s.files (entryFileName e.entryId yamlExt) e⟩

/-- `FileSystemLibrary.get_entry`: `None` when the entry file does not exist,
otherwise the entry loaded from the file. -/
def fsGetEntry (s : FsStore) (entryId : String) : Option EntryRec :=
  lookupA s.files (entryFileName entryId yamlExt)

/-- `FileSystemLibrary.entry_exists`: file-existence check. -/
def fsEntryExists (s : FsStore) (entryId : String) : Bool :=
  containsKey s.files (entryFileName entryId yamlExt)

/-- `FileSystemLibrary.delete_entry` is `Path.unlink()`: removing a missing
file raises `FileNotFoundError`. -/
def fsDeleteEntry (s : FsStore) (entryId : String) : Except String FsStore :=
  let fn := entryFileName entryId yamlExt
  if containsKey s.files fn then .ok ⟨removeAll s.files fn⟩
  else .error "FileNotFoundError"

/-- `SqliteLibrary`'s entry table keyed directly by entry id. -/
structure SqliteStore where
  entries : List (String × EntryRec)
deriving DecidableEq, Repr

/-- `SqliteLibrary.put_entry`: `self._entry_db[entry.entry_id] = entry_dict`. -/
def sqlitePutEntry (s : SqliteStore) (e : EntryRec) : SqliteStore :=
  ⟨insertReplace s.entries e.entryId e⟩

/-- `SqliteLibrary.get_entry`. -/
def sqliteGetEntry (s : SqliteStore) (entryId : String) : Option EntryRec :=
  lookupA s.entries entryId

/-- `SqliteLibrary.delete_entry` is `del self._entry_db[entry_id]`: deleting a
missing key raises `KeyError`. -/
def sqliteDeleteEntry (s : SqliteStore) (entryId : String) : Except String SqliteStore :=
  if containsKey s.entries entryId then .ok ⟨removeAll s.entries entryId⟩
  else .error "KeyError"

/-- Insertion sort of the entry files by `entry_id_sort_key(efp.stem)`, the
order `_get_sorted_entry_file_paths` maintains in its `SortedKeyList`. -/
def insertSorted (key : String × EntryRec → List KeyPart) (x : String × EntryRec) :
    List (String × EntryRec) → List (String × EntryRec)
  | [] => [x]
  | y :: ys => if ltKey (key x) (key y) then x :: y :: ys else y :: insertSorted key x ys

def sortByKey (key : String × EntryRec → List KeyPart) :
    List (String × EntryRec) → List (String × EntryRec)
  | [] => []
  | x :: xs => insertSorted key x (sortByKey key xs)

/-- The sort key of an entry file: `entry_id_sort_key(efp.stem)`. -/
def fileSortKey (p : String × EntryRec) : List KeyPart :=
  digitValueAwareSortKey (stripLastSuffix p.1)

/-- `FileSystemLibrary.get_entries(limit, after, reverse)`.

* the entry files (those with the configured extension) are sorted by the
  digit-value-aware key of their stem;
* `after` (when truthy) is an exclusive cursor: `irange_key` with
  `inclusive=(False, False)` keeps keys strictly beyond `after`'s key in the
  walk direction;
* `if limit:` — a limit of `0` is falsy and ignored; `islice` raises
  `ValueError` on a negative limit; a positive limit truncates. -/
def fsGetEntries (s : FsStore) (limit : Option Int) (after : Option String)
    (reverse : Bool) : Except String (List EntryRec) :=
  let sorted := sortByKey fileSortKey
    (s.files.filter (fun p => yamlExt.toList.isSuffixOf p.1.toList))
  let afterKey := after.bind (fun a => if a = "" then none else some (digitValueAwareSortKey a))
  let ranged :=
    match afterKey with
    | none => if reverse then sorted.reverse else sorted
    | some k =>
        if reverse then (sorted.filter (fun p => ltKey (fileSortKey p) k)).reverse
        else sorted.filter (fun p => ltKey k (fileSortKey p))
  let loaded := ranged.map (fun p => p.2)
  match limit with
  | none => .ok loaded
  | some l =>
      if l = 0 then .ok loaded
      else if l < 0 then .error "ValueError"
      else .ok (loaded.take l.toNat)

inductive DlState where
  | Initialized
  | Downloading
  | Writing
  | Success
  | Failed
deriving DecidableEq, Repr

structure DownloadStatus where
  url : String
  contentLength : Option Nat := some 0
  downloadedBytes : Nat := 0
  writtenBytes : Nat := 0
  state : DlState := .Initialized
deriving DecidableEq, Repr

/-- `round(a / b)` for `b > 0`: nearest integer, ties to even. -/
def roundDiv (a b : Nat) : Nat :=
  let q := a / b
  let r := a % b
  if 2 * r < b then q
  else if b < 2 * r then q + 1
  else if q % 2 = 0 then q else q + 1

/-- `_DownloadStatus.percent_complete`; `none` models the `ZeroDivisionError`
raised when the declared content length is `0` while a byte counter is
selected. -/
def percentComplete (d : DownloadStatus) : Option Nat :=
  let numerator : Option Nat :=
    match d.state with
    | .Downloading => some d.downloadedBytes
    | .Writing => some d.writtenBytes
    | _ => none
  match numerator, d.contentLength with
  | some n, some len => if len = 0 then none else some (roundDiv (n * 100) len)
  | _, _ => some 100

/-! `_Ingestor.put_entry_with_url_content`.  The library handed to the
ingestor is any `Library`; it is modelled by the entry map it exposes through
`get_entry` / `entry_exists` / `put_entry` (blob persistence is modelled
separately by `createBlob` above).  The fate of each download is environment
input: `DlOutcome.ok b` stands for a fetch and `create_blob` that succeed
producing blob id `b`, `DlOutcome.err` for a fetch or persist step that
raises.  `ThreadPool.map` returns results in the order of its input list, so
the worker pool is embedded as a map over the request's download inputs. -/

inductive IngState where
  | Working
  | Success
  | Failed
deriving DecidableEq, Repr

structure Ingestion where
  libraryId : String
  entryId : String
  state : IngState
  downloads : List DownloadStatus
deriving DecidableEq, Repr

structure DownloadInput where
  url : String
  contentType : Option String := none
deriving DecidableEq, Repr

inductive ConflictResolution where
  | Skip
  | Replace
  | ReplaceIfMore
deriving DecidableEq, Repr

inductive DlOutcome where
  | ok (blobId : String)
  | err
deriving DecidableEq, Repr

/-- The terminal `_DownloadStatus.state` a worker leaves for an outcome. -/
def dlFate : DlOutcome → DlState
  | .ok _ => .Success
  | .err => .Failed

/-- The `Optional[Blob]` value `download_and_create_blob` returns. -/
def dlBlob : DlOutcome → Option String
  | .ok b => some b
  | .err => none

structure LibModel where
  libraryId : String
  entries : List (String × EntryRec)
deriving DecidableEq, Repr

def libGetEntry (l : LibModel) (entryId : String) : Option EntryRec :=
  lookupA l.entries entryId

def libEntryExists (l : LibModel) (entryId : String) : Bool :=
  (libGetEntry l entryId).isSome

def libPutEntry (l : LibModel) (e : EntryRec) : LibModel :=
  ⟨l.libraryId, insertReplace l.entries e.entryId e⟩

/-- The decline conditions checked, in order, before a record is created:
a `Working` record for the same `(library_id, entry_id)`; `Skip` with an
existing entry; `ReplaceIfMore` with an existing entry holding at least as
many blobs as there are requested downloads. -/
def declinesIngestion (ings : List Ingestion) (lib : LibModel) (entryId : String)
    (numInputs : Nat) (policy : ConflictResolution) : Bool :=
  ings.any (fun i =>
      i.libraryId == lib.libraryId && i.entryId == entryId && i.state == .Working) ||
  (match policy with
   | .Skip => libEntryExists lib entryId
   | .ReplaceIfMore =>
       match libGetEntry lib entryId with
       | some e => decide (numInputs ≤ e.blobIds.length)
       | none => false
   | .Replace => false)

/-- The final `_DownloadStatus` a worker leaves behind (byte counters evolve
through the callbacks modelled by `percentComplete`'s inputs; the claims below
concern the terminal states). -/
def mkDlStatus (inp : DownloadInput) (out : DlOutcome) : DownloadStatus :=
  match out with
  | .ok _ => { url := inp.url, state := .Success }
  | .err => { url := inp.url, state := .Failed }

/-- The per-download worker results, in request order: the final status and
the blob produced (`None` on failure, mirroring `download_and_create_blob`). -/
def runDownloads (inputs : List DownloadInput) (outcomes : List DlOutcome) :
    List (DownloadStatus × Option String) :=
  (inputs.zip outcomes).map (fun p => (mkDlStatus p.1 p.2, dlBlob p.2))

structure IngestResult where
  /-- The ingestion record appended for this request (with its final state);
  `none` when the request was declined before a record was created. -/
  record : Option Ingestion
  newLib : LibModel
  /-- The `Optional[Entry]` return value. -/
  returned : Option EntryRec
deriving DecidableEq, Repr

/-- `_Ingestor.put_entry_with_url_content(library, entry_id, entry_metadata,
download_inputs, conflict_resolution)`, with the downloads' fates supplied by
`outcomes`:

* a declined request returns `None` with no record and no library mutation;
* otherwise all downloads run to completion; any failure leaves the record
  `Failed` with no `put_entry` call;
* when every download succeeds, the entry is assembled from the blobs in
  request order (`filter(None, blobs)`), persisted, and returned. -/
def putEntryWithUrlContent (ings : List Ingestion) (lib : LibModel)
    (entryId : String) (meta : String) (inputs : List DownloadInput)
    (outcomes : List DlOutcome) (policy : ConflictResolution) : IngestResult :=
  if declinesIngestion ings lib entryId inputs.length policy then
    { record := none, newLib := lib, returned := none }
  else
    let results := runDownloads inputs outcomes
    let downloads := results.map (fun r => r.1)
    if results.any (fun r => r.2.isNone) then
      { record := some ⟨lib.libraryId, entryId, .Failed, downloads⟩,
        newLib := lib, returned := none }
    else
      let entry : EntryRec := ⟨entryId, meta, results.filterMap (fun r => r.2)⟩
      { record := some ⟨lib.libraryId, entryId, .Success, downloads⟩,
        newLib := libPutEntry lib entry,
        returned := some entry }

/-! ### Helper lemmas -/

theorem lookupA_insertReplace_self {α : Type} (l : List (String × α)) (k : String)
    (v : α) : lookupA (insertReplace l k v) k = some v := by
  induction l with
  | nil => simp [insertReplace, lookupA]
  | cons p rest ih =>
      obtain ⟨k', v'⟩ := p
      by_cases h : k' = k
      · simp [insertReplace, lookupA, h]
      · simp [insertReplace, lookupA, h, ih]

theorem lookupA_removeAll_self {α : Type} (l : List (String × α)) (k : String) :
    lookupA (removeAll l k) k = none := by
  induction l with
  | nil => simp [removeAll, lookupA]
  | cons p rest ih =>
      obtain ⟨k', v'⟩ := p
      by_cases h : k' = k
      · simpa [removeAll, h] using ih
      · simpa [removeAll, lookupA, h] using ih

/-- The blob id returned by `create_blob` is `blobIdOf`, whichever dedup
branch is taken. -/
theorem createBlob_blobId (guess : String → Option String) (s : BlobStore)
    (c : ContentM) (cb : Bool) :
    (createBlob guess s c cb).1.1 = blobIdOf guess c := by
  unfold createBlob
  cases h : lookupA s.blobs (blobIdOf guess c) <;> simp [h]

/-- `create_blob` on a dedup miss: the body is streamed again into the
backend write primitive, the write count grows by one, and the callback fires
when given and the content is non-empty. -/
theorem createBlob_miss (guess : String → Option String) (s : BlobStore)
    (c : ContentM) (cb : Bool) (h : lookupA s.blobs (blobIdOf guess c) = none) :
    createBlob guess s c cb =
      ((blobIdOf guess c, c.bytes),
       ⟨insertReplace s.blobs (blobIdOf guess c) c.bytes, s.writes + 1⟩,
       ⟨(if c.prehashed then 0 else 1) + 1, 1, cb && !c.bytes.isEmpty⟩) := by
  simp only [createBlob]
  rw [h]

/-- `create_blob` on a dedup hit: the stored blob is returned, the store is
untouched and no write or callback happens. -/
theorem createBlob_hit (guess : String → Option String) (s : BlobStore)
    (c : ContentM) (cb : Bool) (stored : List Nat)
    (h : lookupA s.blobs (blobIdOf guess c) = some stored) :
    createBlob guess s c cb =
      ((blobIdOf guess c, stored), s, ⟨if c.prehashed then 0 else 1, 0, false⟩) := by
  simp only [createBlob]
  rw [h]

/-- Validation of the SHA-1 embedding against the official test vector for the
empty message. -/
theorem sha1Hex_empty_vector :
    sha1Hex [] = "da39a3ee5e6b4b0d3255bfef95601890afd80709" := by rfl

/-- Validation of the SHA-1 embedding against the official test vector for
`"abc"`. -/
theorem sha1Hex_abc_vector :
    sha1Hex [97, 98, 99] = "a9993e364706816aba3e25717850c26c9cd0d89d" := by rfl

theorem runDownloads_cons (x : DownloadInput) (xs : List DownloadInput)
    (y : DlOutcome) (ys : List DlOutcome) :
    runDownloads (x :: xs) (y :: ys) =
      (mkDlStatus x y, dlBlob y) :: runDownloads xs ys := rfl

theorem runDownloads_states : ∀ (inputs : List DownloadInput)
    (outcomes : List DlOutcome), outcomes.length = inputs.length →
    (runDownloads inputs outcomes).map (fun r => r.1.state) = outcomes.map dlFate
  | [], [], _ => rfl
  | x :: xs, y :: ys, h => by
      rw [runDownloads_cons, List.map_cons, List.map_cons,
        runDownloads_states xs ys (by simpa using h)]
      cases y <;> rfl
  | [], _ :: _, h => by simp at h
  | _ :: _, [], h => by simp at h

theorem runDownloads_any_none : ∀ (inputs : List DownloadInput)
    (outcomes : List DlOutcome), outcomes.length = inputs.length →
    (runDownloads inputs outcomes).any (fun r => r.2.isNone) =
      outcomes.any (fun o => o == DlOutcome.err)
  | [], [], _ => rfl
  | x :: xs, y :: ys, h => by
      rw [runDownloads_cons, List.any_cons, List.any_cons,
        runDownloads_any_none xs ys (by simpa using h)]
      cases y <;> rfl
  | [], _ :: _, h => by simp at h
  | _ :: _, [], h => by simp at h

theorem runDownloads_blobs : ∀ (inputs : List DownloadInput)
    (outcomes : List DlOutcome), outcomes.length = inputs.length →
    (runDownloads inputs outcomes).filterMap (fun r => r.2) =
      outcomes.filterMap dlBlob
  | [], [], _ => rfl
  | x :: xs, y :: ys, h => by
      have ih := runDownloads_blobs xs ys (by simpa using h)
      cases y <;> simp [runDownloads_cons, dlBlob, ih]
  | [], _ :: _, h => by simp at h
  | _ :: _, [], h => by simp at h

theorem runDownloads_length (inputs : List DownloadInput) (outcomes : List DlOutcome)
    (h : outcomes.length = inputs.length) :
    (runDownloads inputs outcomes).length = inputs.length := by
  unfold runDownloads
  rw [List.length_map, List.length_zip, h, Nat.min_self]

theorem filterMap_ok_id (bs : List String) :
    (bs.map DlOutcome.ok).filterMap dlBlob = bs := by
  induction bs with
  | nil => rfl
  | cons b rest ih => simp [dlBlob, ih]

/-- A declined request produces no record, no library mutation and a `None`
return. -/
theorem putEntry_decline_shape (ings : List Ingestion) (lib : LibModel)
    (entryId meta : String) (inputs : List DownloadInput) (outcomes : List DlOutcome)
    (policy : ConflictResolution)
    (h : declinesIngestion ings lib entryId inputs.length policy = true) :
    putEntryWithUrlContent ings lib entryId meta inputs outcomes policy =
      ⟨none, lib, none⟩ := by
  simp [putEntryWithUrlContent, h]

/-- An accepted request always creates a record. -/
theorem putEntry_accept_record (ings : List Ingestion) (lib : LibModel)
    (entryId meta : String) (inputs : List DownloadInput) (outcomes : List DlOutcome)
    (policy : ConflictResolution)
    (h : declinesIngestion ings lib entryId inputs.length policy = false) :
    (putEntryWithUrlContent ings lib entryId meta inputs outcomes policy).record.isSome := by
  simp only [putEntryWithUrlContent, h, Bool.false_eq_true, if_false]
  split <;> simp

/-- The decline test spelled out as a proposition. -/
theorem declines_iff (ings : List Ingestion) (lib : LibModel) (entryId : String)
    (n : Nat) (policy : ConflictResolution) :
    declinesIngestion ings lib entryId n policy = true ↔
      ((∃ i ∈ ings, i.libraryId = lib.libraryId ∧ i.entryId = entryId ∧
          i.state = IngState.Working) ∨
       (policy = .Skip ∧ libEntryExists lib entryId = true) ∨
       (policy = .ReplaceIfMore ∧ ∃ e, libGetEntry lib entryId = some e ∧
          n ≤ e.blobIds.length)) := by
  unfold declinesIngestion
  cases policy with
  | Skip =>
      simp [List.any_eq_true, Bool.and_eq_true, beq_iff_eq, and_assoc]
  | Replace =>
      simp [List.any_eq_true, Bool.and_eq_true, beq_iff_eq, and_assoc]
  | ReplaceIfMore =>
      cases hget : libGetEntry lib entryId <;>
        simp [List.any_eq_true, Bool.and_eq_true, beq_iff_eq, and_assoc, hget]

/-! ### Claim theorems -/

/-- C2: a submitted ingestion request is declined as a no-op — no record
created, no library mutation, `None` returned — exactly when another record
for the same `(library_id, entry_id)` is `Working`, or the policy is `Skip`
and the entry exists, or the policy is `ReplaceIfMore` and the existing
entry's blob count is at least the number of requested downloads; with
`Replace`, and with `ReplaceIfMore` when the request has strictly more
downloads than the existing blobs (or no entry exists), the request proceeds
and a record is created. -/
theorem ingestion_acceptance_predicate (ings : List Ingestion) (lib : LibModel)
    (entryId meta : String) (inputs : List DownloadInput)
    (outcomes : List DlOutcome) (policy : ConflictResolution) :
    ((putEntryWithUrlContent ings lib entryId meta inputs outcomes policy).record = none ↔
      ((∃ i ∈ ings, i.libraryId = lib.libraryId ∧ i.entryId = entryId ∧
          i.state = IngState.Working) ∨
       (policy = .Skip ∧ libEntryExists lib entryId = true) ∨
       (policy = .ReplaceIfMore ∧ ∃ e, libGetEntry lib entryId = some e ∧
          inputs.length ≤ e.blobIds.length))) ∧
    ((putEntryWithUrlContent ings lib entryId meta inputs outcomes policy).record = none →
      (putEntryWithUrlContent ings lib entryId meta inputs outcomes policy).newLib = lib ∧
      (putEntryWithUrlContent ings lib entryId meta inputs outcomes policy).returned = none) := by
  have hiff : (putEntryWithUrlContent ings lib entryId meta inputs outcomes policy).record
      = none ↔ declinesIngestion ings lib entryId inputs.length policy = true := by
    cases hd : declinesIngestion ings lib entryId inputs.length policy with
    | true => simp [putEntry_decline_shape ings lib entryId meta inputs outcomes policy hd]
    | false =>
        have := putEntry_accept_record ings lib entryId meta inputs outcomes policy hd
        constructor
        · intro hnone; rw [hnone] at this; simp at this
        · intro h; simp at h
  refine ⟨hiff.trans (declines_iff ings lib entryId inputs.length policy), ?_⟩
  intro hnone
  have hd := hiff.mp hnone
  rw [putEntry_decline_shape ings lib entryId meta inputs outcomes policy hd]
  exact ⟨rfl, rfl⟩

/-- C2 witness: with an entry `x` holding two blobs already present and
conflict policy `Skip`, the request is declined. -/
theorem ingestion_acceptance_predicate_witness :
    (putEntryWithUrlContent [] ⟨"L", [("x", ⟨"x", "m", ["b1", "b2"]⟩)]⟩ "x" "m"
      [⟨"u1", none⟩, ⟨"u2", none⟩] [DlOutcome.ok "b1", DlOutcome.ok "b2"]
      ConflictResolution.Skip).record = none :=
  (ingestion_acceptance_predicate [] ⟨"L", [("x", ⟨"x", "m", ["b1", "b2"]⟩)]⟩ "x" "m"
      [⟨"u1", none⟩, ⟨"u2", none⟩] [DlOutcome.ok "b1", DlOutcome.ok "b2"]
      ConflictResolution.Skip).1.mpr (Or.inr (Or.inl ⟨rfl, by rfl⟩))

/-- C3: for an accepted ingestion where at least one download fails, every
download still runs (the record holds one final status per requested
download, `Failed` at the failing positions and `Success` at the succeeding
ones, in request order), the record ends `Failed`, the library is unchanged
(`put_entry` is not called) and `None` is returned. -/
theorem ingestion_partial_failure_aggregation (ings : List Ingestion)
    (lib : LibModel) (entryId meta : String) (inputs : List DownloadInput)
    (outcomes : List DlOutcome) (policy : ConflictResolution)
    (hlen : outcomes.length = inputs.length)
    (hacc : declinesIngestion ings lib entryId inputs.length policy = false)
    (herr : DlOutcome.err ∈ outcomes) :
    ∃ r, (putEntryWithUrlContent ings lib entryId meta inputs outcomes policy).record
        = some r ∧
      r.state = IngState.Failed ∧
      r.downloads.map (fun d => d.state) = outcomes.map dlFate ∧
      r.downloads.length = inputs.length ∧
      (putEntryWithUrlContent ings lib entryId meta inputs outcomes policy).newLib = lib ∧
      (putEntryWithUrlContent ings lib entryId meta inputs outcomes policy).returned
        = none := by
  have hany : (runDownloads inputs outcomes).any (fun r => r.2.isNone) = true := by
    rw [runDownloads_any_none inputs outcomes hlen]
    exact List.any_eq_true.mpr ⟨DlOutcome.err, herr, by rfl⟩
  refine ⟨⟨lib.libraryId, entryId, .Failed, (runDownloads inputs outcomes).map
    (fun r => r.1)⟩, ?_, rfl, ?_, ?_, ?_, ?_⟩ <;>
    simp only [putEntryWithUrlContent, hacc, Bool.false_eq_true, if_false, hany, if_true]
  · rw [List.map_map]
    exact runDownloads_states inputs outcomes hlen
  · rw [List.length_map]
    have := runDownloads_length inputs outcomes hlen
    simpa using this

/-- C3 witness: three resources, the second fetch fails — the record ends
`Failed` with statuses `Success, Failed, Success` and no entry is written. -/
theorem ingestion_partial_failure_aggregation_witness :
    ∃ r, (putEntryWithUrlContent [] ⟨"L", []⟩ "x" "m"
        [⟨"u1", none⟩, ⟨"u2", none⟩, ⟨"u3", none⟩]
        [DlOutcome.ok "b1", DlOutcome.err, DlOutcome.ok "b3"]
        ConflictResolution.Skip).record = some r ∧
      r.state = IngState.Failed ∧
      r.downloads.map (fun d => d.state) =
        [DlOutcome.ok "b1", DlOutcome.err, DlOutcome.ok "b3"].map dlFate ∧
      r.downloads.length = 3 ∧
      (putEntryWithUrlContent [] ⟨"L", []⟩ "x" "m"
        [⟨"u1", none⟩, ⟨"u2", none⟩, ⟨"u3", none⟩]
        [DlOutcome.ok "b1", DlOutcome.err, DlOutcome.ok "b3"]
        ConflictResolution.Skip).newLib = ⟨"L", []⟩ ∧
      (putEntryWithUrlContent [] ⟨"L", []⟩ "x" "m"
        [⟨"u1", none⟩, ⟨"u2", none⟩, ⟨"u3", none⟩]
        [DlOutcome.ok "b1", DlOutcome.err, DlOutcome.ok "b3"]
        ConflictResolution.Skip).returned = none :=
  ingestion_partial_failure_aggregation [] ⟨"L", []⟩ "x" "m"
    [⟨"u1", none⟩, ⟨"u2", none⟩, ⟨"u3", none⟩]
    [DlOutcome.ok "b1", DlOutcome.err, DlOutcome.ok "b3"]
    ConflictResolution.Skip (by rfl) (by rfl) (by decide)

/-- C9: for an accepted ingestion in which every download succeeds, the
persisted entry's blob sequence is exactly the blobs in the caller-specified
resource order, the record ends `Success`, and the entry is both returned and
written to the library. -/
theorem ingestion_preserves_request_order (ings : List Ingestion)
    (lib : LibModel) (entryId meta : String) (inputs : List DownloadInput)
    (bs : List String) (policy : ConflictResolution)
    (hlen : bs.length = inputs.length)
    (hacc : declinesIngestion ings lib entryId inputs.length policy = false) :
    ∃ r, (putEntryWithUrlContent ings lib entryId meta inputs (bs.map DlOutcome.ok)
        policy).record = some r ∧
      r.state = IngState.Success ∧
      (putEntryWithUrlContent ings lib entryId meta inputs (bs.map DlOutcome.ok)
        policy).returned = some ⟨entryId, meta, bs⟩ ∧
      (putEntryWithUrlContent ings lib entryId meta inputs (bs.map DlOutcome.ok)
        policy).newLib = libPutEntry lib ⟨entryId, meta, bs⟩ := by
  have hlen' : (bs.map DlOutcome.ok).length = inputs.length := by
    rw [List.length_map]; exact hlen
  have hany : (runDownloads inputs (bs.map DlOutcome.ok)).any (fun r => r.2.isNone)
      = false := by
    rw [runDownloads_any_none inputs (bs.map DlOutcome.ok) hlen']
    simp
  have hblobs : (runDownloads inputs (bs.map DlOutcome.ok)).filterMap (fun r => r.2)
      = bs := by
    rw [runDownloads_blobs inputs (bs.map DlOutcome.ok) hlen', filterMap_ok_id]
  refine ⟨⟨lib.libraryId, entryId, .Success, (runDownloads inputs (bs.map DlOutcome.ok)).map
    (fun r => r.1)⟩, ?_, rfl, ?_, ?_⟩ <;>
    simp only [putEntryWithUrlContent, hacc, Bool.false_eq_true, if_false, hany,
      hblobs]

/-- C9 witness: two successful downloads with blob ids `b1, b2` produce an
entry whose blob sequence is `[b1, b2]` in request order. -/
theorem ingestion_preserves_request_order_witness :
    ∃ r, (putEntryWithUrlContent [] ⟨"L", []⟩ "x" "m"
        [⟨"u1", none⟩, ⟨"u2", none⟩]
        (["b1", "b2"].map DlOutcome.ok) ConflictResolution.Replace).record = some r ∧
      r.state = IngState.Success ∧
      (putEntryWithUrlContent [] ⟨"L", []⟩ "x" "m"
        [⟨"u1", none⟩, ⟨"u2", none⟩]
        (["b1", "b2"].map DlOutcome.ok) ConflictResolution.Replace).returned =
        some ⟨"x", "m", ["b1", "b2"]⟩ ∧
      (putEntryWithUrlContent [] ⟨"L", []⟩ "x" "m"
        [⟨"u1", none⟩, ⟨"u2", none⟩]
        (["b1", "b2"].map DlOutcome.ok) ConflictResolution.Replace).newLib =
        libPutEntry ⟨"L", []⟩ ⟨"x", "m", ["b1", "b2"]⟩ :=
  ingestion_preserves_request_order [] ⟨"L", []⟩ "x" "m"
    [⟨"u1", none⟩, ⟨"u2", none⟩] ["b1", "b2"] ConflictResolution.Replace
    (by rfl) (by rfl)

/-- C4: for a library holding exactly the entries `e1, e2, e3, e10, e100`
(inserted in that order), `get_entries()` returns all five ascending under the
digit-value-aware comparator; `reverse=True` the exact reverse; `limit=2` the
first two of the forward order; `after="e2"` exactly `e3, e10, e100`
(excluding `e1` and `e2`); and `limit=2, after="e10", reverse=True` exactly
the two entries strictly before `e10` in descending order. -/
theorem get_entries_pagination_scenario :
    (fsGetEntries (fsPutEntry (fsPutEntry (fsPutEntry (fsPutEntry (fsPutEntry
        ⟨[]⟩ ⟨"e1", "", ["b1"]⟩) ⟨"e2", "", ["b2"]⟩) ⟨"e3", "", ["b3"]⟩)
        ⟨"e10", "", ["b4"]⟩) ⟨"e100", "", ["b5"]⟩)
      none none false =
      .ok [⟨"e1", "", ["b1"]⟩, ⟨"e2", "", ["b2"]⟩, ⟨"e3", "", ["b3"]⟩,
           ⟨"e10", "", ["b4"]⟩, ⟨"e100", "", ["b5"]⟩]) ∧
    (fsGetEntries (fsPutEntry (fsPutEntry (fsPutEntry (fsPutEntry (fsPutEntry
        ⟨[]⟩ ⟨"e1", "", ["b1"]⟩) ⟨"e2", "", ["b2"]⟩) ⟨"e3", "", ["b3"]⟩)
        ⟨"e10", "", ["b4"]⟩) ⟨"e100", "", ["b5"]⟩)
      none none true =
      .ok [⟨"e100", "", ["b5"]⟩, ⟨"e10", "", ["b4"]⟩, ⟨"e3", "", ["b3"]⟩,
           ⟨"e2", "", ["b2"]⟩, ⟨"e1", "", ["b1"]⟩]) ∧
    (fsGetEntries (fsPutEntry (fsPutEntry (fsPutEntry (fsPutEntry (fsPutEntry
        ⟨[]⟩ ⟨"e1", "", ["b1"]⟩) ⟨"e2", "", ["b2"]⟩) ⟨"e3", "", ["b3"]⟩)
        ⟨"e10", "", ["b4"]⟩) ⟨"e100", "", ["b5"]⟩)
      (some 2) none false =
      .ok [⟨"e1", "", ["b1"]⟩, ⟨"e2", "", ["b2"]⟩]) ∧
    (fsGetEntries (fsPutEntry (fsPutEntry (fsPutEntry (fsPutEntry (fsPutEntry
        ⟨[]⟩ ⟨"e1", "", ["b1"]⟩) ⟨"e2", "", ["b2"]⟩) ⟨"e3", "", ["b3"]⟩)
        ⟨"e10", "", ["b4"]⟩) ⟨"e100", "", ["b5"]⟩)
      none (some "e2") false =
      .ok [⟨"e3", "", ["b3"]⟩, ⟨"e10", "", ["b4"]⟩, ⟨"e100", "", ["b5"]⟩]) ∧
    (fsGetEntries (fsPutEntry (fsPutEntry (fsPutEntry (fsPutEntry (fsPutEntry
        ⟨[]⟩ ⟨"e1", "", ["b1"]⟩) ⟨"e2", "", ["b2"]⟩) ⟨"e3", "", ["b3"]⟩)
        ⟨"e10", "", ["b4"]⟩) ⟨"e100", "", ["b5"]⟩)
      (some 2) (some "e10") true =
      .ok [⟨"e3", "", ["b3"]⟩, ⟨"e2", "", ["b2"]⟩]) := by
  refine ⟨by rfl, by rfl, by rfl, by rfl, by rfl⟩

/-- C5 (code bug): `percent_complete` only guards `content_length is not
None`, but `content_length` is always an `int` (`0` when the length is
unknown), so a declared length of `0` while `Downloading` or `Writing` reaches
`round(numerator * 100 / 0)` and raises `ZeroDivisionError` (modelled as
`none`) instead of reporting 100; for a known positive length the percentage
is the tracked counter times 100 over the length, rounded. -/
theorem percent_complete_zero_length_division :
    (percentComplete ⟨"u", some 0, 5, 0, .Downloading⟩ = none) ∧
    (percentComplete ⟨"u", some 0, 0, 3, .Writing⟩ = none) ∧
    (percentComplete ⟨"u", some 200, 50, 0, .Downloading⟩ = some 25) ∧
    (percentComplete ⟨"u", some 200, 0, 151, .Writing⟩ = some 76) ∧
    (percentComplete ⟨"u", some 0, 0, 0, .Initialized⟩ = some 100) := by
  decide

/-- C10 (code bug): `_get_entry_file_path` replaces the entry id's own final
dot-suffix with the entry file extension, so the distinct ids `"a.b"` and
`"a.c"` are both stored in the same file `"a.yaml"`: `put_entry` for `"a.c"`
overwrites the entry stored for `"a.b"`, and `get_entry("a.b")` afterwards
returns the `"a.c"` record — the per-entry-id frame property fails. -/
theorem entry_file_path_suffix_collision :
    (entryFileName "a.b" yamlExt = "a.yaml") ∧
    (entryFileName "a.c" yamlExt = "a.yaml") ∧
    (fsGetEntry (fsPutEntry ⟨[]⟩ ⟨"a.b", "m1", ["x"]⟩) "a.b" =
      some ⟨"a.b", "m1", ["x"]⟩) ∧
    (fsGetEntry (fsPutEntry (fsPutEntry ⟨[]⟩ ⟨"a.b", "m1", ["x"]⟩)
        ⟨"a.c", "m2", ["y"]⟩) "a.b" = some ⟨"a.c", "m2", ["y"]⟩) := by
  decide

/-- C6 counterexample: `delete_entry` is not idempotent — on an absent entry
id `FileSystemLibrary.delete_entry` unlinks a missing file and raises
`FileNotFoundError`, and `SqliteLibrary.delete_entry` deletes a missing key
and raises `KeyError`. -/
theorem delete_entry_absent_raises :
    (fsDeleteEntry ⟨[]⟩ "x" = .error "FileNotFoundError") ∧
    (sqliteDeleteEntry ⟨[]⟩ "x" = .error "KeyError") := by
  exact ⟨rfl, rfl⟩

/-- C1 counterexample: on the second `create_blob` call for the same
non-prehashed content the blob already exists and no write happens, but the
content body *is* read once more — `create_blob` streams the body through the
SHA-1 accumulator before the existence check, so the dedup short-circuit does
not avoid re-reading the content. -/
theorem create_blob_second_call_rereads_body :
    (createBlob (fun _ => none)
        (createBlob (fun _ => none) ⟨[], 0⟩ ⟨[1, 2, 3], "binary/octet-stream", false⟩ true).2.1
        ⟨[1, 2, 3], "binary/octet-stream", false⟩ true).2.2.bodyReads = 1 ∧
    ¬ ((createBlob (fun _ => none)
        (createBlob (fun _ => none) ⟨[], 0⟩ ⟨[1, 2, 3], "binary/octet-stream", false⟩ true).2.1
        ⟨[1, 2, 3], "binary/octet-stream", false⟩ true).2.2.bodyReads = 0) := by
  have h : (createBlob (fun _ => none)
      (createBlob (fun _ => none) ⟨[], 0⟩ ⟨[1, 2, 3], "binary/octet-stream", false⟩ true).2.1
      ⟨[1, 2, 3], "binary/octet-stream", false⟩ true).2.2.bodyReads = 1 := by rfl
  exact ⟨h, by rw [h]; decide⟩

/-- C1 (amended): for any Content whose blob id is not yet stored, two
successive `create_blob` calls yield the same Blob (hence the same BlobId),
the backend records exactly one persisted write across both calls, and the
second call performs no write and never invokes the progress callback; the
content body is not re-read on the second call when the content is prehashed
(`DownloadedContent`, the ingestion path), while a plain content's body is
streamed exactly once more — solely to recompute the hash. -/
theorem create_blob_dedup_idempotent (guess : String → Option String)
    (s : BlobStore) (c : ContentM) (cb : Bool)
    (r1 r2 : (String × List Nat) × BlobStore × CreateEvents)
    (hr1 : r1 = createBlob guess s c cb)
    (hr2 : r2 = createBlob guess r1.2.1 c cb)
    (habs : lookupA s.blobs (blobIdOf guess c) = none) :
    r2.1 = r1.1 ∧
    r1.2.1.writes = s.writes + 1 ∧
    r2.2.1 = r1.2.1 ∧
    r2.2.2.persistWrites = 0 ∧
    r2.2.2.callbackInvoked = false ∧
    (c.prehashed = true → r2.2.2.bodyReads = 0) ∧
    (c.prehashed = false → r2.2.2.bodyReads = 1) := by
  subst hr1 hr2
  rw [createBlob_miss guess s c cb habs]
  rw [createBlob_hit guess _ c cb c.bytes (lookupA_insertReplace_self s.blobs _ _)]
  refine ⟨rfl, rfl, rfl, rfl, rfl, ?_, ?_⟩ <;> intro hpre <;> simp [hpre]

/-- C1 witness: a prehashed content ingested twice into an empty store — one
write, and a second call with no write, no callback and no body read. -/
theorem create_blob_dedup_idempotent_witness :
    (let r1 := createBlob (fun _ => none) ⟨[], 0⟩
      ⟨[1, 2, 3], "binary/octet-stream", true⟩ true
     let r2 := createBlob (fun _ => none) r1.2.1
      ⟨[1, 2, 3], "binary/octet-stream", true⟩ true
     r2.1 = r1.1 ∧ r1.2.1.writes = 0 + 1 ∧ r2.2.1 = r1.2.1 ∧
       r2.2.2.persistWrites = 0 ∧ r2.2.2.callbackInvoked = false ∧
       r2.2.2.bodyReads = 0) := by
  have h := create_blob_dedup_idempotent (fun _ => none) ⟨[], 0⟩
    ⟨[1, 2, 3], "binary/octet-stream", true⟩ true _ _ rfl rfl rfl
  exact ⟨h.1, h.2.1, h.2.2.1, h.2.2.2.1, h.2.2.2.2.1, h.2.2.2.2.2.1 rfl⟩

/-- C6 (amended): `delete_entry` removes a present entry, after which
`get_entry` is absent and `entry_exists` is false; but it is not idempotent —
on an absent entry id `FileSystemLibrary` raises `FileNotFoundError` and
`SqliteLibrary` raises `KeyError`. -/
theorem delete_entry_present_removes (s : FsStore) (t : SqliteStore)
    (entryId : String) :
    (fsEntryExists s entryId = true →
      ∃ s', fsDeleteEntry s entryId = .ok s' ∧
        fsGetEntry s' entryId = none ∧ fsEntryExists s' entryId = false) ∧
    (fsEntryExists s entryId = false →
      fsDeleteEntry s entryId = .error "FileNotFoundError") ∧
    ((sqliteGetEntry t entryId).isSome = true →
      ∃ t', sqliteDeleteEntry t entryId = .ok t' ∧
        sqliteGetEntry t' entryId = none) ∧
    ((sqliteGetEntry t entryId).isSome = false →
      sqliteDeleteEntry t entryId = .error "KeyError") := by
  refine ⟨?_, ?_, ?_, ?_⟩
  · intro h
    have h' : containsKey s.files (entryFileName entryId yamlExt) = true := h
    refine ⟨⟨removeAll s.files (entryFileName entryId yamlExt)⟩, ?_, ?_, ?_⟩
    · simp [fsDeleteEntry, h']
    · exact lookupA_removeAll_self s.files (entryFileName entryId yamlExt)
    · simp [fsEntryExists, containsKey,
        lookupA_removeAll_self s.files (entryFileName entryId yamlExt)]
  · intro h
    have h' : containsKey s.files (entryFileName entryId yamlExt) = false := h
    simp [fsDeleteEntry, h']
  · intro h
    have h' : containsKey t.entries entryId = true := h
    refine ⟨⟨removeAll t.entries entryId⟩, ?_, ?_⟩
    · simp [sqliteDeleteEntry, h']
    · exact lookupA_removeAll_self t.entries entryId
  · intro h
    have h' : containsKey t.entries entryId = false := h
    simp [sqliteDeleteEntry, h']

/-- C6 witness: deleting the present entry `t` succeeds in both backends and
leaves it absent. -/
theorem delete_entry_present_removes_witness :
    (∃ s', fsDeleteEntry (fsPutEntry ⟨[]⟩ ⟨"t", "", []⟩) "t" = .ok s' ∧
      fsGetEntry s' "t" = none ∧ fsEntryExists s' "t" = false) ∧
    (∃ t', sqliteDeleteEntry (sqlitePutEntry ⟨[]⟩ ⟨"t", "", []⟩) "t" = .ok t' ∧
      sqliteGetEntry t' "t" = none) :=
  ⟨(delete_entry_present_removes (fsPutEntry ⟨[]⟩ ⟨"t", "", []⟩)
      (sqlitePutEntry ⟨[]⟩ ⟨"t", "", []⟩) "t").1 (by rfl),
   (delete_entry_present_removes (fsPutEntry ⟨[]⟩ ⟨"t", "", []⟩)
      (sqlitePutEntry ⟨[]⟩ ⟨"t", "", []⟩) "t").2.2.1 (by rfl)⟩

/-- C8: the BlobId produced by `create_blob` is a pure function of the content
bytes and the MIME-derived extension — it equals the lowercase-hex SHA-1 of
the bytes concatenated with the (normalized) extension guessed from the MIME
type, with the empty string when no extension is known; identical bytes whose
MIME types guess the same extension collide on the same BlobId regardless of
store, callback or prehashing; and a guessed `.jpe` is rewritten to `.jpg`. -/
theorem blob_id_deterministic (guess guess2 : String → Option String)
    (s s2 : BlobStore) (c c2 : ContentM) (cb cb2 : Bool) :
    ((createBlob guess s c cb).1.1 =
      sha1Hex c.bytes ++ normalizeExt (guess c.mime)) ∧
    (c.bytes = c2.bytes → guess c.mime = guess2 c2.mime →
      (createBlob guess s c cb).1.1 = (createBlob guess2 s2 c2 cb2).1.1) ∧
    (guess c.mime = some ".jpe" →
      (createBlob guess s c cb).1.1 = sha1Hex c.bytes ++ ".jpg") := by
  refine ⟨?_, ?_, ?_⟩
  · rw [createBlob_blobId]; rfl
  · intro hb hg
    rw [createBlob_blobId, createBlob_blobId]
    unfold blobIdOf
    rw [hb, hg]
  · intro hj
    rw [createBlob_blobId]
    unfold blobIdOf
    rw [hj]
    rfl

/-- C8 witness: the bytes of `"abc"` declared `image/jpeg` under a guess
table mapping `image/jpeg` to `.jpe` produce the BlobId
`sha1("abc") + ".jpg"`, independently of store, callback and prehashing. -/
theorem blob_id_deterministic_witness :
    ((createBlob (fun m => if m = "image/jpeg" then some ".jpe" else none)
        ⟨[], 0⟩ ⟨[97, 98, 99], "image/jpeg", false⟩ true).1.1 =
      "a9993e364706816aba3e25717850c26c9cd0d89d.jpg") ∧
    ((createBlob (fun m => if m = "image/jpeg" then some ".jpe" else none)
        ⟨[], 0⟩ ⟨[97, 98, 99], "image/jpeg", false⟩ true).1.1 =
      (createBlob (fun m => if m = "image/jpeg" then some ".jpe" else none)
        ⟨[("z", [1])], 5⟩ ⟨[97, 98, 99], "image/jpeg", true⟩ false).1.1) :=
  ⟨((blob_id_deterministic (fun m => if m = "image/jpeg" then some ".jpe" else none)
        (fun m => if m = "image/jpeg" then some ".jpe" else none) ⟨[], 0⟩ ⟨[], 0⟩
        ⟨[97, 98, 99], "image/jpeg", false⟩ ⟨[97, 98, 99], "image/jpeg", false⟩
        true true).2.2 (by rfl)).trans (by rfl),
   (blob_id_deterministic (fun m => if m = "image/jpeg" then some ".jpe" else none)
        (fun m => if m = "image/jpeg" then some ".jpe" else none) ⟨[], 0⟩
        ⟨[("z", [1])], 5⟩ ⟨[97, 98, 99], "image/jpeg", false⟩
        ⟨[97, 98, 99], "image/jpeg", true⟩ true false).2.1 rfl rfl⟩

end SBS2
